import Mathlib

/-!
# FusionBrain — shallow embedding and verification

A shallow embedding, in Lean 4, of the cognitive-orchestration core of the
FusionBrain repository (`src/core/brain.py`, `src/core/memory.py`,
`src/core/goals.py`, `src/core/self_state.py`, `src/experts/base_expert.py`,
`src/experts/policy_sampler.py`, `src/meta/meta_learning.py`), together with
theorems settling the behavioural claims about that code.

Modelling conventions:
* Python floats are embedded as `ℚ` (all arithmetic in these files is
  elementary: `+ - * / min max abs round`).
* Wall-clock time (`time.time()`), generated uuids, and the replies of the
  external LLM / RAG collaborators are nondeterministic environment inputs;
  every operation that consumes one takes it as an explicit argument.
* Fallible Python code is embedded in `Except PyErr`; code that cannot raise
  is embedded as a total function.
* Python strings are manipulated through executable helpers over `List Char`
  (substring test, replace, strip, slicing), mirroring `in`, `str.replace`,
  `str.strip` and slice expressions.
-/

namespace FusionBrain

/-! ## String helpers (Python `in`, `str.replace`, `str.strip`, slices) -/

/-- Python `pat in s` (substring containment), via list infix. -/
def strContains (s pat : String) : Bool :=
  decide (pat.toList <:+: s.toList)

/-- Replace every (left-to-right, non-overlapping) occurrence of `pat` by
`rep`, as Python `str.replace`.  An empty pattern is left unreplaced (the
patterns used in the source are never empty).  Structural recursion on a fuel
that only needs to dominate the input length, so that the kernel can
evaluate it. -/
def replaceFuel (pat rep : List Char) : Nat → List Char → List Char
  | 0, l => l
  | fuel + 1, l =>
    match l with
    | [] => []
    | c :: cs =>
      if pat ≠ [] ∧ pat.isPrefixOf (c :: cs) = true then
        rep ++ replaceFuel pat rep fuel ((c :: cs).drop pat.length)
      else
        c :: replaceFuel pat rep fuel cs

def replaceList (pat rep l : List Char) : List Char :=
  replaceFuel pat rep l.length l

/-- Python `s.replace(pat, rep)`. -/
def strReplace (s pat rep : String) : String :=
  String.mk (replaceList pat.toList rep.toList s.toList)

/-- The whitespace characters stripped by Python `str.strip()`. -/
def isPyWhitespace (c : Char) : Bool :=
  c = ' ' || c = '\t' || c = '\n' || c = '\x0d' || c = '\x0b' || c = '\x0c'

/-- Python `s.strip()`. -/
def strStrip (s : String) : String :=
  String.mk (((s.toList.dropWhile isPyWhitespace).reverse.dropWhile
      isPyWhitespace).reverse)

/-- Python `s[:n]` for `n ≥ 0`. -/
def strTake (n : Nat) (s : String) : String :=
  String.mk (s.toList.take n)

/-- Python `s[-n:]` for `n > 0`: the last `n` characters (everything used in
the source calls this with a positive literal bound). -/
def strTakeRight (n : Nat) (s : String) : String :=
  String.mk (s.toList.drop (s.toList.length - n))

/-- Python `s.lower()` (sufficient for the ASCII keywords the router tests). -/
def strLower (s : String) : String :=
  String.mk (s.toList.map Char.toLower)

/-! ## Python values and exceptions -/

/-- Dynamically typed Python/JSON values as they flow through the router and
the orchestration loop.  JSON numbers are embedded as integers (the schema
the router requests uses only `int`). -/
inductive PyVal where
  | pnone : PyVal
  | pbool (b : Bool) : PyVal
  | pint (n : Int) : PyVal
  | pstr (s : String) : PyVal
  | plist (xs : List PyVal) : PyVal
  | pdict (entries : List (String × PyVal)) : PyVal
deriving Repr, BEq

/-- Python exceptions relevant to the embedded code. -/
inductive PyErr where
  | typeError (msg : String) : PyErr
  | attributeError (msg : String) : PyErr
  | notImplementedError (msg : String) : PyErr
  | exn (msg : String) : PyErr
deriving Repr, DecidableEq

/-- Python `str(e)` on an exception. -/
def PyErr.msg : PyErr → String
  | .typeError m => m
  | .attributeError m => m
  | .notImplementedError m => m
  | .exn m => m

/-- Lookup in an association list modelling a Python `dict` (first match). -/
def dlookup (d : List (String × α)) (k : String) : Option α :=
  (d.find? (fun kv => kv.1 = k)).map (·.2)

/-- Python `d[k] = v`: replace the value at an existing key in place,
otherwise append the new binding (insertion order preserved). -/
def dset (d : List (String × α)) (k : String) (v : α) : List (String × α) :=
  if d.any (fun kv => kv.1 = k) then
    d.map (fun kv => if kv.1 = k then (k, v) else kv)
  else
    d ++ [(k, v)]

/-- Python `k in d` on a `dict`. -/
def dmem (d : List (String × α)) (k : String) : Bool :=
  d.any (fun kv => kv.1 = k)

/-! ## Memory (`src/core/memory.py`)

`MemoryItem` is a dict with keys `id`, `role`, `content`, `ts`, `importance`,
`attention` and `meta` (`meta` only ever holds the single key `"topic"`, so it
is flattened into an optional field).  The buffer is a `deque(maxlen=max_items)`
(oldest first), `index` a dict id → item, `topics` a `defaultdict(set)`
topic → ids, `stats` a `defaultdict(int)` role → count. -/

structure MemItem where
  id : String
  role : String
  content : String
  ts : ℚ
  importance : ℚ
  attention : ℚ
  topic : Option String
deriving Repr, DecidableEq

structure MemoryState where
  maxItems : Nat
  decayHalfLife : ℚ
  consolidationInterval : ℚ
  buffer : List MemItem
  index : List (String × MemItem)
  topics : List (String × List String)
  stats : List (String × Nat)
  lastConsolidation : ℚ
deriving Repr, DecidableEq

/-- `Memory.__init__` (defaults `max_items=512`, `decay_half_life=1800`,
`consolidation_interval=120`); `now` is the boot time recorded in
`_last_consolidation`. -/
def initMemory (maxItems : Nat) (now : ℚ) : MemoryState :=
  { maxItems := maxItems
    decayHalfLife := 1800
    consolidationInterval := 120
    buffer := []
    index := []
    topics := []
    stats := []
    lastConsolidation := now }

/-- `deque(maxlen=m).append`: append on the right, evicting from the left
when the bound is exceeded. -/
def dequeAppend (m : Nat) (buf : List α) (x : α) : List α :=
  let b := buf ++ [x]
  b.drop (b.length - m)

/-- Python truthiness of the `topic` value tested by `if topic:` in
`Memory._register` (both `None` and the empty string are falsy). -/
def topicTruthy : Option String → Bool
  | none => false
  | some t => t ≠ ""

/-- `Memory._register`: append to the ring buffer, index by id, index by
topic when one is (truthily) present, bump the per-role counter. -/
def register (item : MemItem) (st : MemoryState) : MemoryState :=
  { st with
    buffer := dequeAppend st.maxItems st.buffer item
    index := dset st.index item.id item
    topics :=
      if topicTruthy item.topic then
        let t := item.topic.getD ""
        dset st.topics t
          (let ids := (dlookup st.topics t).getD []
           if item.id ∈ ids then ids else ids ++ [item.id])
      else st.topics
    stats := dset st.stats item.role ((dlookup st.stats item.role).getD 0 + 1) }

/-- `Memory.store` (with `Memory._make_item` inlined): the fresh uuid and the
`time.time()` stamp are environment inputs. -/
def store (id : String) (ts : ℚ) (role text : String) (topic : Option String)
    (importance attention : ℚ) (st : MemoryState) : MemoryState :=
  register
    { id := id, role := role, content := text, ts := ts,
      importance := importance, attention := attention, topic := topic } st

/-- `Memory.recent`: `list(self.buffer)[-n:]`.  Note that for `n = 0` the
Python slice `[-0:]` is `[0:]`, the whole list. -/
def recent (n : Nat) (buf : List α) : List α :=
  if n = 0 then buf else buf.drop (buf.length - n)

/-- `decayed_importance`: `importance * exp(-age / half_life)` where
`age = now - ts`.  The transcendental `math.exp` is taken as an environment
parameter `expf`; no claim depends on its values. -/
def decayVal (expf : ℚ → ℚ) (halfLife now : ℚ) (m : MemItem) : ℚ :=
  m.importance * expf (-((now - m.ts) / halfLife))

/-- `Memory.consolidate`: rate-limited sweep; keeps items whose decayed
importance exceeds `0.02`, rebuilds `index` from the survivors (the dict
comprehension `{m["id"]: m for m in survivors}`), and — as in the source —
leaves `topics` untouched. -/
def consolidate (expf : ℚ → ℚ) (now : ℚ) (st : MemoryState) : MemoryState :=
  if now - st.lastConsolidation < st.consolidationInterval then st
  else
    let survivors :=
      st.buffer.filter (fun m => decide ((2 : ℚ)/100 < decayVal expf st.decayHalfLife now m))
    { st with
      buffer := survivors
      index := survivors.foldl (fun d m => dset d m.id m) []
      lastConsolidation := now }

/-- One iteration of the re-registration loop in `Memory.load` (append to
the fresh bounded deque, index by id, index by truthy topic). -/
def loadRegister (acc : MemoryState) (item : MemItem) : MemoryState :=
  { acc with
    buffer := dequeAppend acc.maxItems acc.buffer item
    index := dset acc.index item.id item
    topics :=
      if topicTruthy item.topic then
        let t := item.topic.getD ""
        dset acc.topics t
          (let ids := (dlookup acc.topics t).getD []
           if item.id ∈ ids then ids else ids ++ [item.id])
      else acc.topics }

/-- The body of `Memory.load` after a successful `json.load`: clear buffer
and indexes, then re-register the records of `data[-max_items:]` (the same
`[-n:]` slice as `recent`, so `max_items = 0` would select the whole list —
the deque bound still discards every append then).  The buffer is a fresh
`deque(maxlen=max_items)` append loop; `stats` is not touched by `load`. -/
def memLoadOk (data : List MemItem) (st : MemoryState) : MemoryState :=
  (recent st.maxItems data).foldl loadRegister
    { st with buffer := [], index := [], topics := [] }

/-- `Memory.load`: `open(path)` + `json.load(f)` happen before anything else
and are not guarded by any `try`/`except`, so a missing file
(`FileNotFoundError`) or an unparseable one (`json.JSONDecodeError`) raises
out of `load`; `readResult` is the outcome of that read-and-parse. -/
def memoryLoad (readResult : Except PyErr (List MemItem)) (st : MemoryState) :
    Except PyErr MemoryState :=
  match readResult with
  | .error e => .error e
  | .ok data => .ok (memLoadOk data st)

/-- `Memory.clear`. -/
def memClear (st : MemoryState) : MemoryState :=
  { st with buffer := [], index := [], topics := [], stats := [] }

/-- The operations over which the index-consistency claim quantifies. -/
inductive MemOp where
  | store (id : String) (ts : ℚ) (role content : String) (topic : Option String)
      (importance attention : ℚ) : MemOp
  | consolidate (now : ℚ) : MemOp
  | load (data : List MemItem) : MemOp
  | clear : MemOp

def applyMemOp (expf : ℚ → ℚ) (st : MemoryState) : MemOp → MemoryState
  | .store id ts role content topic imp att => store id ts role content topic imp att st
  | .consolidate now => consolidate expf now st
  | .load data => memLoadOk data st
  | .clear => memClear st

def runMem (expf : ℚ → ℚ) (ops : List MemOp) (st : MemoryState) : MemoryState :=
  ops.foldl (applyMemOp expf) st

/-- Some item currently in the buffer has this id. -/
def idInBuffer (st : MemoryState) (i : String) : Bool :=
  st.buffer.any (fun m => m.id = i)

/-- The claimed invariant: every id in the id index and every id in a topic
index entry refers to an item currently present in the buffer. -/
def indexConsistent (st : MemoryState) : Bool :=
  st.index.all (fun kv => idInBuffer st kv.1) &&
    st.topics.all (fun tv => tv.2.all (fun i => idInBuffer st i))

/-- The converse inclusion: every item in the buffer is registered in the
id index. -/
def bufferIndexed (st : MemoryState) : Bool :=
  st.buffer.all (fun m => dmem st.index m.id)

/-! ## SelfState (`src/core/self_state.py`) -/

structure SelfStateQ where
  fatigue : ℚ
  stress : ℚ
  mood : ℚ
  confidence : ℚ
  focus : ℚ
  lastUpdate : ℚ
deriving Repr, DecidableEq

/-- `SelfState.__init__` at boot time `now`. -/
def initSelfState (now : ℚ) : SelfStateQ :=
  { fatigue := 0, stress := 0, mood := 1/2, confidence := 1/2, focus := 1,
    lastUpdate := now }

/-- The `metrics` dict consumed by `SelfState.update`; the three keys the
code reads, each possibly absent. -/
structure Metrics where
  complexity : Option ℚ
  success : Option Bool
  confidence : Option ℚ
deriving Repr, DecidableEq

/-- `SelfState.update` (does not touch `last_update`). -/
def selfUpdate (m : Metrics) (s : SelfStateQ) : SelfStateQ :=
  let complexity := m.complexity.getD (1/10)
  let success := m.success.getD true
  let confidenceScore := m.confidence.getD (1/2)
  let fatigue := min 1 (s.fatigue + complexity * (1/10))
  let confidence :=
    if success then min 1 (s.confidence + 5/100) else max 0 (s.confidence - 1/10)
  let mood :=
    if success then min 1 (s.mood + 5/100) else max 0 (s.mood - 1/10)
  let stress :=
    if success then max 0 (s.stress - 5/100) else min 1 (s.stress + 1/10)
  let confidence :=
    if m.confidence.isSome then confidence * (7/10) + confidenceScore * (3/10)
    else confidence
  let focus := max 0 (1 - fatigue * (8/10) - stress * (2/10))
  { fatigue := fatigue, stress := stress, mood := mood,
    confidence := confidence, focus := focus, lastUpdate := s.lastUpdate }

/-- `SelfState._natural_decay` at wall-clock time `now` (the guard `delta > 10`
makes `delta` positive, so Python `int(delta / 10)` is the floor). -/
def naturalDecay (now : ℚ) (s : SelfStateQ) : SelfStateQ :=
  let delta := now - s.lastUpdate
  if 10 < delta then
    let recoverySteps : ℤ := Int.floor (delta / 10)
    let recoveryAmount : ℚ := (recoverySteps : ℚ) * (2/100)
    { s with
      fatigue := max 0 (s.fatigue - recoveryAmount)
      stress := max 0 (s.stress - recoveryAmount)
      mood :=
        if 1/2 < s.mood then max (1/2) (s.mood - recoveryAmount)
        else min (1/2) (s.mood + recoveryAmount)
      lastUpdate := now }
  else s

/-- A step of the SelfState lifecycle: an `update(metrics)` call or a
`snapshot()` call (which applies `_natural_decay` before reading). -/
inductive SSStep where
  | update (m : Metrics) : SSStep
  | snapshot (now : ℚ) : SSStep
deriving Repr, DecidableEq

def applySSStep (s : SelfStateQ) : SSStep → SelfStateQ
  | .update m => selfUpdate m s
  | .snapshot now => naturalDecay now s

def runSelfState (steps : List SSStep) (s : SelfStateQ) : SelfStateQ :=
  steps.foldl applySSStep s

/-- The claimed invariant: the five cognitive scalars all lie in `[0, 1]`. -/
def inRange01 (s : SelfStateQ) : Bool :=
  decide (0 ≤ s.fatigue ∧ s.fatigue ≤ 1) && decide (0 ≤ s.stress ∧ s.stress ≤ 1) &&
    decide (0 ≤ s.mood ∧ s.mood ≤ 1) && decide (0 ≤ s.confidence ∧ s.confidence ≤ 1) &&
    decide (0 ≤ s.focus ∧ s.focus ≤ 1)

/-- Well-formed metrics: a supplied complexity is nonnegative and a supplied
confidence observation lies in `[0, 1]`. -/
def metricsOk (m : Metrics) : Bool :=
  m.complexity.all (fun c => decide (0 ≤ c)) &&
    m.confidence.all (fun q => decide (0 ≤ q ∧ q ≤ 1))

def ssStepOk : SSStep → Bool
  | .update m => metricsOk m
  | .snapshot _ => true

/-! ## Goals (`src/core/goals.py`)

`Goal.status` stores the string `value` of the `GoalStatus` enum
(`"active"`, `"completed"`, `"failed"`, `"pending"`). -/

structure GoalQ where
  id : String
  description : String
  priority : Int
  status : String
  createdAt : ℚ
  completedAt : Option ℚ
  parentId : Option String
  subgoals : List String
deriving Repr, DecidableEq

/-- `Goal.__init__` with its uuid and creation time as environment inputs. -/
def mkGoal (gid : String) (now : ℚ) (description : String) (priority : Int)
    (parentId : Option String) : GoalQ :=
  { id := gid, description := description, priority := priority,
    status := "active", createdAt := now, completedAt := none,
    parentId := parentId, subgoals := [] }

/-- `Goal.complete` (unconditional). -/
def GoalQ.complete (now : ℚ) (g : GoalQ) : GoalQ :=
  { g with status := "completed", completedAt := some now }

/-- `Goal.fail` (unconditional). -/
def GoalQ.fail (g : GoalQ) : GoalQ :=
  { g with status := "failed" }

structure GoalManagerState where
  goals : List (String × GoalQ)
deriving Repr, DecidableEq

/-- `GoalManager.add_goal`. -/
def addGoal (gid : String) (now : ℚ) (description : String) (priority : Int)
    (parentId : Option String) (st : GoalManagerState) : GoalManagerState :=
  let goals := dset st.goals gid (mkGoal gid now description priority parentId)
  match parentId with
  | some p =>
    if dmem goals p then
      { goals := goals.map (fun kv =>
          if kv.1 = p then (kv.1, { kv.2 with subgoals := kv.2.subgoals ++ [gid] })
          else kv) }
    else { goals := goals }
  | none => { goals := goals }

/-- `GoalManager.complete_goal`: guarded only by membership of the id; when
the goal exists, `Goal.complete` is applied unconditionally, whatever the
current status. -/
def completeGoal (now : ℚ) (gid : String) (st : GoalManagerState) :
    GoalManagerState :=
  if dmem st.goals gid then
    { goals := st.goals.map (fun kv =>
        if kv.1 = gid then (kv.1, GoalQ.complete now kv.2) else kv) }
  else st

/-- Status of a goal by id, as seen through `GoalManager.get_goal`. -/
def goalStatus (st : GoalManagerState) (gid : String) : Option String :=
  (dlookup st.goals gid).map (·.status)

/-! ## MetaLearning weights (`src/meta/meta_learning.py`) -/

def learningRate : ℚ := 5/100
def minWeight : ℚ := 1/10
def maxWeight : ℚ := 2

/-- The initial `self.weights` dict. -/
def initWeights : List (String × ℚ) :=
  [("WebExpert", 1), ("ReasoningExpert", 12/10), ("CodeExpert", 1),
   ("QuantumExpert", 1), ("CriticExpert", 13/10)]

/-- Python `round(x)` to an integer: round half to even. -/
def pyRoundInt (x : ℚ) : ℤ :=
  let f := Int.floor x
  let r := x - (f : ℚ)
  if r < 1/2 then f
  else if 1/2 < r then f + 1
  else if Even f then f else f + 1

/-- Python `round(x, 4)`. -/
def round4 (x : ℚ) : ℚ :=
  (pyRoundInt (x * 10000) : ℚ) / 10000

/-- `MetaLearning._adjust_weight`. -/
def adjustWeight (w : List (String × ℚ)) (expertName : String) (direction : Int)
    (quality : ℚ) : List (String × ℚ) :=
  let current := (dlookup w expertName).getD 1
  let delta := (direction : ℚ) * learningRate * |quality - 1/2| * 2
  let newWeight := max minWeight (min maxWeight (current + delta))
  dset w expertName (round4 newWeight)

/-- The fields of the `critique` dict that `MetaLearning.learn` reads to drive
a weight adjustment (`score`, `best_expert`). -/
structure CritiqueQ where
  score : Option ℚ
  bestExpert : Option String
deriving Repr, DecidableEq

structure MetaState where
  weights : List (String × ℚ)
  totalCycles : Nat
  successfulCycles : Nat
deriving Repr, DecidableEq

def initMetaState : MetaState :=
  { weights := initWeights, totalCycles := 0, successfulCycles := 0 }

/-- Python truthiness of `best_expert` in
`if best_expert and best_expert in self.weights`. -/
def bestTruthy : Option String → Bool
  | none => false
  | some s => s ≠ ""

/-- The weight/counter effect of one `MetaLearning.learn` call:
`total_cycles` is always incremented; `quality_score = critique.get("score",
0.5)`; a strictly-greater-than-0.7 score bumps `successful_cycles` and (when
`best_expert` is truthy and a known weight key) nudges that weight up, a
strictly-below-0.4 score nudges it down.  The reflexion branch only talks to
the external knowledge collaborator and bumps the lesson counter, and `save`
only writes to disk — neither touches the weights. -/
def learnStep (st : MetaState) (c : CritiqueQ) : MetaState :=
  if 7/10 < c.score.getD (1/2) then
    if bestTruthy c.bestExpert && dmem st.weights (c.bestExpert.getD "") then
      { st with totalCycles := st.totalCycles + 1,
                successfulCycles := st.successfulCycles + 1,
                weights := adjustWeight st.weights (c.bestExpert.getD "") 1
                  (c.score.getD (1/2)) }
    else
      { st with totalCycles := st.totalCycles + 1,
                successfulCycles := st.successfulCycles + 1 }
  else if c.score.getD (1/2) < 4/10 then
    if bestTruthy c.bestExpert && dmem st.weights (c.bestExpert.getD "") then
      { st with totalCycles := st.totalCycles + 1,
                weights := adjustWeight st.weights (c.bestExpert.getD "") (-1)
                  (c.score.getD (1/2)) }
    else { st with totalCycles := st.totalCycles + 1 }
  else { st with totalCycles := st.totalCycles + 1 }

/-- All routing weights lie within `[min_weight, max_weight]`. -/
def weightsInRange (w : List (String × ℚ)) : Bool :=
  w.all (fun kv => decide (minWeight ≤ kv.2 ∧ kv.2 ≤ maxWeight))

/-! ## PolicySampler (`src/experts/policy_sampler.py`) -/

/-- The fixed intent enumeration the router's system prompt requests. -/
def intents : List String := ["CODING", "RESEARCH", "REASONING", "CHAT"]

/-- `PolicySampler._fallback_routing`: deterministic keyword rules. -/
def fallbackRouting (prompt : String) : PyVal :=
  let p := strLower prompt
  if ["код", "code", "python", "script"].any (fun w => strContains p w) then
    .pdict [("intent", .pstr "CODING"), ("expert", .pstr "CodeExpert"),
            ("difficulty", .pint 5)]
  else if ["поиск", "найди", "research", "кто", "когда"].any
      (fun w => strContains p w) then
    .pdict [("intent", .pstr "RESEARCH"), ("expert", .pstr "ResearchExpert"),
            ("difficulty", .pint 3)]
  else
    .pdict [("intent", .pstr "REASONING"), ("expert", .pstr "ReasoningExpert"),
            ("difficulty", .pint 5)]

/-- The fence-stripping in `classify_intent`:
`response.replace("```json", "").replace("```", "").strip()`. -/
def cleanReply (response : String) : String :=
  strStrip (strReplace (strReplace response "```json" "") "```" "")

/-- `PolicySampler.classify_intent`.  `response` is the collaborator's raw
reply (`self._ask_model` returns a plain string even when the backend fails);
`loads` is the behaviour of `json.loads`, `none` meaning it raises.  The
`raise ValueError("No JSON")` on a reply without `"{"` and any `json.loads`
failure are both caught by the enclosing `except`, which falls back to the
keyword rules; a reply that *does* parse is returned as-is, unvalidated. -/
def classifyIntent (loads : String → Option PyVal) (prompt response : String) :
    PyVal :=
  let cleanJson := cleanReply response
  if !strContains cleanJson "\x7b" then fallbackRouting prompt
  else
    match loads cleanJson with
    | none => fallbackRouting prompt
    | some data => data

/-- A structurally complete routing decision: a dict with an `"intent"` from
the fixed enumeration, a string `"expert"`, and an integer `"difficulty"`. -/
def isCompleteDecision : PyVal → Bool
  | .pdict d =>
    (match dlookup d "intent" with
     | some (.pstr s) => intents.contains s
     | _ => false) &&
    (match dlookup d "expert" with
     | some (.pstr _) => true
     | _ => false) &&
    (match dlookup d "difficulty" with
     | some (.pint _) => true
     | _ => false)
  | _ => false

/-! ## BaseExpert (`src/experts/base_expert.py`) -/

/-- `BaseExpert._validate_context`:
`isinstance(context, dict) and "prompt" in context`. -/
def validateContext : PyVal → Bool
  | .pdict d => dmem d "prompt"
  | _ => false

/-- The fixed message returned on an invalid context. -/
def invalidContextMsg (name : String) : String :=
  "[" ++ name ++ "] Context invalid: 'prompt' missing."

/-- `BaseExpert.run`: validate, then delegate to the subclass task logic
`perform` (its possible exceptions are the `Except`), converting
`NotImplementedError` and any other exception into diagnostic text. -/
def baseRun (name : String) (perform : PyVal → Except PyErr String)
    (context : PyVal) : String :=
  if !validateContext context then invalidContextMsg name
  else
    match perform context with
    | .ok result => result
    | .error (.notImplementedError _) =>
      "[" ++ name ++ "] Critical: Expert logic not implemented."
    | .error e => "[" ++ name ++ "] Error: " ++ e.msg

/-! ## Orchestration loop (`src/core/brain.py`, `FusionBrain.think`) -/

def CONTEXT_LIMIT : Nat := 4000
def CRITIQUE_LIMIT : Nat := 2000

/-- The context dict assembled by `think` (its keys, with `critique` the key
that is only set after a failed critique). -/
structure Ctx where
  prompt : String
  memory : List MemItem
  knowledge : String
  prevOutput : String
  critique : Option String
deriving Repr

/-- `max_retries = 2 if difficulty > 4 else 1` (line 94). -/
def maxRetriesOf (difficulty : Int) : Nat :=
  if 4 < difficulty then 2 else 1

/-- The critique-gate condition of line 110:
`intent in {"CODING", "REASONING"} and difficulty >= 4`. -/
def critiqueGate (intent : String) (difficulty : Int) : Bool :=
  (intent == "CODING" || intent == "REASONING") && decide (4 ≤ difficulty)

/-- The revised prompt built after a failed critique (lines 102-106). -/
def retryPrompt (userPrompt critique : String) : String :=
  "ORIGINAL TASK:\n" ++ userPrompt ++ "\n\nCRITIC FEEDBACK:\n" ++ critique ++
    "\n\nFix errors."

/-- Verdict detection (line 114):
`"[VERDICT]: PASS" in critique or "✅" in critique`. -/
def passedVerdict (critique : String) : Bool :=
  strContains critique "[VERDICT]: PASS" || strContains critique "✅"

/-- The body of `for attempt in range(max_retries)` (lines 97-125),
structurally recursive over the remaining attempt indices.  `expertF` and
`criticF` are the (total — `BaseExpert.run` and `CriticExpert.run` catch all
exceptions) invocations of the routed expert and of the critic.  Returns the
final response together with the number of expert dispatches and of critic
calls made. -/
def dispatchGo (expertF criticF : Ctx → String) (userPrompt intent : String)
    (difficulty : Int) (maxR : Nat) :
    List Nat → Ctx → String → Nat → Nat → String × Nat × Nat
  | [], _ctx, finalResponse, nDisp, nCrit => (finalResponse, nDisp, nCrit)
  | attempt :: rest, ctx, _finalResponse, nDisp, nCrit =>
    let ctx :=
      if 0 < attempt then
        { ctx with prompt :=
            retryPrompt userPrompt (strTake CRITIQUE_LIMIT (ctx.critique.getD "")) }
      else ctx
    let result := expertF ctx
    if critiqueGate intent difficulty then
      let ctx := { ctx with prevOutput := result }
      let critique := criticF ctx
      if passedVerdict critique then (result, nDisp + 1, nCrit + 1)
      else
        let ctx := { ctx with critique := some critique }
        let finalResponse := if attempt = maxR - 1 then result else ""
        dispatchGo expertF criticF userPrompt intent difficulty maxR rest ctx
          finalResponse (nDisp + 1) (nCrit + 1)
    else (result, nDisp + 1, nCrit)

/-- The dispatch/critique/retry loop of `think` (lines 92-125), started from
the assembled context with `final_response = ""`. -/
def dispatchLoop (expertF criticF : Ctx → String) (userPrompt intent : String)
    (difficulty : Int) (ctx0 : Ctx) : String × Nat × Nat :=
  dispatchGo expertF criticF userPrompt intent difficulty
    (maxRetriesOf difficulty) (List.range (maxRetriesOf difficulty)) ctx0 "" 0 0

/-- Python `plan.get(key, default)`: dicts have the `get` method; on any
non-dict value the attribute access raises `AttributeError`. -/
def pyDictGet (v : PyVal) (key : String) (dflt : PyVal) : Except PyErr PyVal :=
  match v with
  | .pdict d => .ok ((dlookup d key).getD dflt)
  | _ => .error (.attributeError "object has no attribute 'get'")

/-- Python `difficulty > 4` / `difficulty >= 4`: `int` and `bool` compare with
an int; a string, list, dict or `None` raises `TypeError` (line 94 is
evaluated before the loop, so a badly-typed difficulty raises there). -/
def pyTowardInt : PyVal → Except PyErr Int
  | .pint n => .ok n
  | .pbool b => .ok (if b then 1 else 0)
  | _ => .error (.typeError "'>' not supported between instances of this type and 'int'")

/-- The string content of the routed intent: `intent in {"CODING", "REASONING"}`
is `False` for every non-string value, and the empty string is a member of
neither, so non-strings are mapped to `""`. -/
def pyStrOrEmpty : PyVal → String
  | .pstr s => s
  | _ => ""

/-- The keys of `FusionBrain.experts_map` (lines 48-52); the `.get` default is
the reasoning expert. -/
def expertsMapNames : List String := ["CodeExpert", "ResearchExpert", "ReasoningExpert"]

/-- `self.experts_map.get(target_expert_name, self.default_expert)`, as the
name of the expert whose `run` is dispatched. -/
def selectExpertName (expertV : PyVal) : String :=
  match expertV with
  | .pstr s => if expertsMapNames.contains s then s else "ReasoningExpert"
  | _ => "ReasoningExpert"

/-- The parameter names of `KnowledgeBase.retrieve`
(`src/core/knowledge.py` line 153: `def retrieve(self, query, top_k=3)`). -/
def retrieveParamNames : List String := ["query", "top_k"]

/-- The keyword used at the call site `self.knowledge.retrieve(user_prompt,
n_results=2)` (`src/core/brain.py` line 72). -/
def retrieveCallKeyword : String := "n_results"

/-- The attribute names defined on `MetaLearning`
(`src/meta/meta_learning.py`) and inherited from `BaseExpert`
(`src/experts/base_expert.py`).  There is no `track` and no
`evaluate_episode`. -/
def metaLearningAttrNames : List String :=
  ["name", "description", "version", "model_name", "storage_path",
   "learning_rate", "min_weight", "max_weight", "weights", "stats",
   "run", "_perform_task", "_validate_context", "_ask_model", "get_info",
   "get_weights", "evaluate", "learn", "_reflexion_loop", "_adjust_weight",
   "save", "load"]

/-- The attribute names defined on `Memory` (`src/core/memory.py`).  There is
no `save_episode`. -/
def memoryAttrNames : List String :=
  ["max_items", "decay_half_life", "importance_boost",
   "consolidation_interval", "buffer", "index", "topics", "stats", "lock",
   "_last_consolidation", "_decay", "_make_item", "_register", "store",
   "store_user", "store_assistant", "inject", "recent", "strongest",
   "by_topic", "search", "reinforce", "punish", "consolidate", "episode",
   "dump", "save", "load", "summary", "embed_hook", "similarity",
   "diagnostics", "clear"]

/-- A Python attribute access `obj.attr` against the attribute table of the
object's class: `AttributeError` when the class defines no such attribute. -/
def pyGetAttr (attrs : List String) (attr clsName : String) : Except PyErr Unit :=
  if attrs.contains attr then .ok ()
  else .error (.attributeError ("'" ++ clsName ++ "' object has no attribute '" ++ attr ++ "'"))

/-- The nondeterministic environment consumed by one `FusionBrain.think`
call: collaborator replies, uuid/clock draws. -/
structure BrainEnv where
  /-- reply of the classification collaborator inside `classify_intent` -/
  routerReply : String → String
  /-- behaviour of `json.loads` on the cleaned reply (`none` = raises) -/
  loads : String → Option PyVal
  /-- what `KnowledgeBase.retrieve` would return for the prompt -/
  retrieveOut : String → String
  /-- `run` of the expert with the given name (total: `BaseExpert.run`
  converts every exception into diagnostic text) -/
  expertOut : String → Ctx → String
  /-- `CriticExpert.run` (total: returns text on every path) -/
  criticOut : Ctx → String
  /-- uuid and timestamp drawn by `memory.store_user` -/
  userStoreId : String
  userStoreTs : ℚ
  /-- uuid and timestamp drawn by `memory.store_assistant` -/
  asstStoreId : String
  asstStoreTs : ℚ

/-- `FusionBrain.think` (`src/core/brain.py` lines 59-143).  Stages, in
source order: PERSIST-user, ROUTE, decision unpacking, knowledge RETRIEVE,
context assembly, the dispatch/critique loop, then LEARN and PERSIST.

The RETRIEVE stage calls `self.knowledge.retrieve(user_prompt, n_results=2)`
while `KnowledgeBase.retrieve` accepts only `(query, top_k)`, so the call
raises `TypeError`.  Were it ever reached, the LEARN stage's
`self.meta_learner.track(...)` (line 127) would raise `AttributeError`
(`MetaLearning` defines no `track`); lines 128-141
(`evaluate_episode`, `stats["reward"]`, `memory.save_episode`) sit behind it
and also name attributes that do not exist, so they are dead code in every
execution and are represented here only by their attribute lookups. -/
def think (env : BrainEnv) (mem0 : MemoryState) (userPrompt : String) :
    Except PyErr String := do
  let mem1 := store env.userStoreId env.userStoreTs "user" userPrompt none 1 1 mem0
  let plan := classifyIntent env.loads userPrompt (env.routerReply userPrompt)
  let intentV ← pyDictGet plan "intent" (.pstr "CHAT")
  let expertV ← pyDictGet plan "expert" (.pstr "ReasoningExpert")
  let difficultyV ← pyDictGet plan "difficulty" (.pint 1)
  let retrievedStr ←
    if retrieveParamNames.contains retrieveCallKeyword then
      pure (env.retrieveOut userPrompt)
    else
      throw (.typeError
        "retrieve() got an unexpected keyword argument 'n_results'")
  let lessonsContext :=
    if strContains retrievedStr "[LESSON]" then
      "\nCRITICAL MEMORY:\n" ++ strTake CONTEXT_LIMIT retrievedStr ++
        "\nAvoid repeating this."
    else ""
  let promptForExpert := strTakeRight CONTEXT_LIMIT (userPrompt ++ lessonsContext)
  let ctx : Ctx :=
    { prompt := promptForExpert
      memory := recent 3 mem1.buffer
      knowledge := strTake CONTEXT_LIMIT retrievedStr
      prevOutput := ""
      critique := none }
  let difficulty ← pyTowardInt difficultyV
  let intent := pyStrOrEmpty intentV
  let expertName := selectExpertName expertV
  let loopOut :=
    dispatchLoop (env.expertOut expertName) env.criticOut userPrompt intent
      difficulty ctx
  let finalResponse := loopOut.1
  let _ ← pyGetAttr metaLearningAttrNames "track" "MetaLearning"
  let _ ← pyGetAttr metaLearningAttrNames "evaluate_episode" "MetaLearning"
  let _mem2 := store env.asstStoreId env.asstStoreTs "assistant" finalResponse
    none 1 1 mem1
  let _ ← pyGetAttr memoryAttrNames "save_episode" "Memory"
  pure finalResponse

/-- `True` exactly when the embedded call raises (ends in an exception). -/
def pyRaises : Except PyErr String → Bool
  | .error _ => true
  | .ok _ => false

/-- `True` exactly when `Memory.load` raises. -/
def loadRaises : Except PyErr MemoryState → Bool
  | .error _ => true
  | .ok _ => false

/-! ## Association-list (`dict`) lemmas -/

theorem dmem_dset_self (d : List (String × α)) (k : String) (v : α) :
    dmem (dset d k v) k = true := by
  unfold dmem dset
  split
  · next h =>
    rw [List.any_eq_true] at h ⊢
    obtain ⟨kv, hkv, hk⟩ := h
    exact ⟨(k, v), List.mem_map.mpr ⟨kv, hkv, by simp [of_decide_eq_true hk]⟩, by simp⟩
  · simp

theorem dmem_dset_of_dmem (d : List (String × α)) (k k' : String) (v : α)
    (h : dmem d k' = true) : dmem (dset d k v) k' = true := by
  unfold dmem dset
  unfold dmem at h
  rw [List.any_eq_true] at h
  obtain ⟨kv, hkv, hk⟩ := h
  split
  · rw [List.any_eq_true]
    by_cases hkk : kv.1 = k
    · exact ⟨(k, v), List.mem_map.mpr ⟨kv, hkv, by simp [hkk]⟩,
        by simpa [of_decide_eq_true hk] using hkk.symm⟩
    · exact ⟨kv, List.mem_map.mpr ⟨kv, hkv, by simp [hkk]⟩, hk⟩
  · rw [List.any_eq_true]
    exact ⟨kv, List.mem_append_left _ hkv, hk⟩

theorem dlookup_none_of_dmem_false (d : List (String × α)) (k : String)
    (h : dmem d k = false) : dlookup d k = none := by
  unfold dmem at h
  unfold dlookup
  rw [List.any_eq_false] at h
  rw [Option.map_eq_none', List.find?_eq_none]
  intro kv hkv
  simpa using h kv hkv

theorem dlookup_map_update (d : List (String × α)) (k : String) (f : α → α) :
    dlookup (d.map fun kv => if kv.1 = k then (kv.1, f kv.2) else kv) k =
      (dlookup d k).map f := by
  induction d with
  | nil => simp [dlookup]
  | cons kv rest ih =>
    by_cases hk : kv.1 = k
    · simp only [List.map_cons, if_pos hk]
      unfold dlookup
      rw [List.find?_cons_of_pos _ (by simpa using hk),
        List.find?_cons_of_pos _ (by simpa using hk)]
      simp
    · simp only [List.map_cons, if_neg hk]
      unfold dlookup
      rw [List.find?_cons_of_neg _ (by simpa using hk),
        List.find?_cons_of_neg _ (by simpa using hk)]
      exact ih

/-! ## C4 — `recent` -/

/-- A concrete sample memory item used in closed statements. -/
def sampleItem : MemItem :=
  { id := "a", role := "user", content := "x", ts := 0,
    importance := 1, attention := 1, topic := none }

/-- C4 counterexample: the claim asserts `recent(0) == []`, but Python
`list(buffer)[-0:]` is the whole buffer: on a one-item buffer `recent 0`
returns that item, not the empty list. -/
theorem recent_zero_claim_false : ¬ (recent 0 [sampleItem] = []) := by
  decide

/-- C4 (amended): `recent 0` returns the *whole* buffer (not the empty
list), and for every `n ≥` the buffer length `recent n` returns the whole
buffer in insertion order. -/
theorem recent_zero_and_large (buf : List MemItem) (n : Nat) :
    recent 0 buf = buf ∧ (buf.length ≤ n → recent n buf = buf) := by
  refine ⟨by simp [recent], fun h => ?_⟩
  unfold recent
  split
  · rfl
  · have hz : buf.length - n = 0 := Nat.sub_eq_zero_of_le h
    rw [hz, List.drop_zero]

/-- C4 witness: `recent_zero_and_large` applied to a concrete one-item
buffer with `n = 5`. -/
theorem recent_zero_and_large_witness :
    recent 0 [sampleItem] = [sampleItem] ∧
      recent 5 [sampleItem] = [sampleItem] :=
  ⟨(recent_zero_and_large _ 5).1, (recent_zero_and_large _ 5).2 (by decide)⟩

/-! ## C9 — `Memory.load` on a missing or corrupt store -/

/-- C9 counterexample: loading from a missing file propagates the exception
(`open` and `json.load` are unguarded), so the claim that it "never raises"
and "loads as empty" is false. -/
theorem load_missing_raises :
    loadRaises (memoryLoad (.error (.exn "FileNotFoundError"))
      (initMemory 512 0)) = true := rfl

theorem dequeAppend_length_le (m : Nat) (buf : List α) (x : α)
    (h : buf.length ≤ m) : (dequeAppend m buf x).length ≤ m := by
  unfold dequeAppend
  simp only [List.length_drop, List.length_append, List.length_cons]
  omega

theorem foldl_dequeAppend_suffix (m : Nat) :
    ∀ (l acc : List α), acc.length ≤ m →
      l.foldl (dequeAppend m) acc = (acc ++ l).drop ((acc ++ l).length - m) := by
  intro l
  induction l with
  | nil =>
    intro acc hacc
    simp only [List.foldl_nil, List.append_nil]
    have : acc.length - m = 0 := Nat.sub_eq_zero_of_le hacc
    rw [this, List.drop_zero]
  | cons x xs ih =>
    intro acc hacc
    rw [List.foldl_cons]
    rw [ih (dequeAppend m acc x) (dequeAppend_length_le m acc x hacc)]
    have hle : acc.length + 1 - m ≤ (acc ++ [x]).length := by
      simp only [List.length_append, List.length_cons, List.length_nil]
      omega
    have key : dequeAppend m acc x ++ xs =
        (acc ++ x :: xs).drop (acc.length + 1 - m) :=
      calc dequeAppend m acc x ++ xs
          = ((acc ++ [x]).drop (acc.length + 1 - m)) ++ xs := by
            unfold dequeAppend
            simp
        _ = ((acc ++ [x]) ++ xs).drop (acc.length + 1 - m) :=
            (List.drop_append_of_le_length hle).symm
        _ = (acc ++ x :: xs).drop (acc.length + 1 - m) := by
            simp
    rw [key, List.length_drop, List.drop_drop]
    congr 1
    simp only [List.length_append, List.length_cons]
    omega

theorem loadRegister_maxItems (acc : MemoryState) (item : MemItem) :
    (loadRegister acc item).maxItems = acc.maxItems := rfl

theorem foldl_loadRegister_buffer (l : List MemItem) :
    ∀ (s : MemoryState),
      (l.foldl loadRegister s).buffer = l.foldl (dequeAppend s.maxItems) s.buffer := by
  induction l with
  | nil => intro s; rfl
  | cons x xs ih =>
    intro s
    rw [List.foldl_cons, List.foldl_cons, ih (loadRegister s x)]
    rfl

/-- After a successful load, the buffer is exactly the last `max_items`
records of the file, in order. -/
theorem memLoadOk_buffer (data : List MemItem) (st : MemoryState) :
    (memLoadOk data st).buffer = data.drop (data.length - st.maxItems) := by
  unfold memLoadOk
  rw [foldl_loadRegister_buffer]
  simp only
  rw [foldl_dequeAppend_suffix st.maxItems (recent st.maxItems data) []
    (by simp)]
  simp only [List.nil_append]
  by_cases hm : st.maxItems = 0
  · rw [hm]
    unfold recent
    simp [List.drop_length]
  · have hrec : recent st.maxItems data =
        data.drop (data.length - st.maxItems) := by
      unfold recent
      rw [if_neg hm]
    rw [hrec]
    have hlen' : (data.drop (data.length - st.maxItems)).length ≤
        st.maxItems := by
      rw [List.length_drop]; omega
    have hz : (data.drop (data.length - st.maxItems)).length - st.maxItems = 0 :=
      Nat.sub_eq_zero_of_le hlen'
    rw [hz, List.drop_zero]

/-- C9 (amended): `Memory.load` propagates the exception of a missing or
unparseable store file (the in-memory store is untouched on that path —
`self.buffer.clear()` only runs after a successful parse); a successful load
replaces the store and truncates the buffer to the last `max_items`
records. -/
theorem memoryLoad_error_and_ok (e : PyErr) (st : MemoryState)
    (data : List MemItem) :
    memoryLoad (.error e) st = .error e ∧
      memoryLoad (.ok data) st = .ok (memLoadOk data st) ∧
      (memLoadOk data st).buffer = data.drop (data.length - st.maxItems) :=
  ⟨rfl, rfl, memLoadOk_buffer data st⟩

/-! ## C6 — goal status transitions -/

/-- A goal manager holding one goal `"g1"` that has already failed
(`GoalManager` exposes no `fail_goal`; `Goal.fail` is the way a goal reaches
the failed status). -/
def mgrWithFailedGoal : GoalManagerState :=
  { goals := [("g1", GoalQ.fail (mkGoal "g1" 0 "demo" 1 none))] }

/-- C6 counterexample: `complete_goal` on a goal that is already in the
terminal status `"failed"` is *not* a no-op — it resurrects the goal to
`"completed"`, because `Goal.complete` is applied unconditionally whenever
the id is known. -/
theorem completeGoal_resurrects_failed :
    goalStatus mgrWithFailedGoal "g1" = some "failed" ∧
      goalStatus (completeGoal 5 "g1" mgrWithFailedGoal) "g1" =
        some "completed" := by
  decide

/-- C6 (amended): `complete_goal` is a no-op when the goal id is unknown,
but when the id is known it unconditionally applies `Goal.complete`, setting
the status to `"completed"` whatever the previous status was — including the
terminal statuses `"completed"` and `"failed"`; one-way transitions are not
enforced. -/
theorem completeGoal_unknown_noop_known_overwrites (st : GoalManagerState)
    (gid : String) (now : ℚ) :
    (dlookup st.goals gid = none → completeGoal now gid st = st) ∧
      ∀ g, dlookup st.goals gid = some g →
        dlookup (completeGoal now gid st).goals gid =
          some (GoalQ.complete now g) := by
  constructor
  · intro hnone
    unfold completeGoal
    have hmem : dmem st.goals gid = false := by
      by_contra hc
      have : dmem st.goals gid = true := by
        cases h : dmem st.goals gid
        · exact absurd h hc
        · rfl
      unfold dmem at this
      rw [List.any_eq_true] at this
      obtain ⟨kv, hkv, hk⟩ := this
      unfold dlookup at hnone
      rw [Option.map_eq_none', List.find?_eq_none] at hnone
      exact absurd hk (by simpa using hnone kv hkv)
    rw [hmem]
    simp
  · intro g hg
    unfold completeGoal
    have hmem : dmem st.goals gid = true := by
      unfold dlookup at hg
      unfold dmem
      rw [List.any_eq_true]
      rcases h : List.find? (fun kv => decide (kv.1 = gid)) st.goals with _ | kv
      · rw [h] at hg; simp at hg
      · have hp := List.find?_some h
        exact ⟨kv, List.mem_of_find?_eq_some h, hp⟩
    rw [hmem]
    simp only [if_true]
    rw [dlookup_map_update st.goals gid (GoalQ.complete now), hg]
    rfl

/-- C6 witness: `completeGoal_unknown_noop_known_overwrites` applied to the
concrete failed-goal manager — the unknown id `"zz"` is a no-op, and the
known (already failed) id `"g1"` is overwritten to completed. -/
theorem completeGoal_witness :
    completeGoal 7 "zz" mgrWithFailedGoal = mgrWithFailedGoal ∧
      dlookup (completeGoal 5 "g1" mgrWithFailedGoal).goals "g1" =
        some (GoalQ.complete 5 (GoalQ.fail (mkGoal "g1" 0 "demo" 1 none))) :=
  ⟨(completeGoal_unknown_noop_known_overwrites mgrWithFailedGoal "zz" 7).1 rfl,
   (completeGoal_unknown_noop_known_overwrites mgrWithFailedGoal "g1" 5).2 _ rfl⟩

/-! ## C10 — `BaseExpert.run` on an invalid context -/

/-- C10: for every context that is not a dict or lacks the key `"prompt"`,
`BaseExpert.run` returns the fixed invalid-context message, whatever the
subclass task logic is — `_perform_task` is never invoked (the result does
not depend on `perform`), so a missing prompt can cause neither an exception
nor a model call. -/
theorem baseRun_invalid_context (name : String)
    (perform : PyVal → Except PyErr String) (context : PyVal)
    (h : validateContext context = false) :
    baseRun name perform context = invalidContextMsg name := by
  unfold baseRun
  rw [h]
  rfl

/-- C10 witness: `baseRun_invalid_context` on a non-dict context (`3`) with a
task logic that would raise if it were ever invoked. -/
theorem baseRun_invalid_context_witness :
    baseRun "CodeExpert" (fun _ => .error (.exn "boom")) (.pint 3) =
      invalidContextMsg "CodeExpert" :=
  baseRun_invalid_context "CodeExpert" (fun _ => .error (.exn "boom"))
    (.pint 3) rfl

/-! ## C2 — `classify_intent` completeness -/

/-- A `json.loads` behaviour that parses the reply `"{}"` to the empty dict
(exactly what CPython's `json.loads` does there) and raises elsewhere. -/
def loadsEmptyObject : String → Option PyVal :=
  fun s => if s = "\x7b\x7d" then some (.pdict []) else none

/-- C2 counterexample: on the collaborator reply `"{}"` — valid JSON, so
`json.loads` succeeds — `classify_intent` returns the parsed dict verbatim,
with no `intent`, no `expert` and no `difficulty`: the decision is not
structurally complete. -/
theorem classifyIntent_empty_object_incomplete :
    isCompleteDecision (classifyIntent loadsEmptyObject "hi" "\x7b\x7d") =
      false := by
  decide

/-- Every branch of the rule-based fallback is a structurally complete
decision with an intent from the fixed enumeration. -/
theorem fallbackRouting_complete (prompt : String) :
    isCompleteDecision (fallbackRouting prompt) = true := by
  simp only [fallbackRouting]
  split
  · decide
  · split
    · decide
    · decide

/-- C2 (amended): whenever the collaborator's reply contains no `"{"` after
fence-stripping, or fails to parse as JSON (including every collaborator
failure, which `_ask_model` surfaces as plain text), `classify_intent`
returns the rule-based fallback decision, and that fallback is always
structurally complete; but a reply that parses as JSON is returned verbatim
and unvalidated, so it need not be complete. -/
theorem classifyIntent_fallback_complete (loads : String → Option PyVal)
    (prompt response : String)
    (h : strContains (cleanReply response) "\x7b" = false ∨
      loads (cleanReply response) = none) :
    classifyIntent loads prompt response = fallbackRouting prompt ∧
      isCompleteDecision (classifyIntent loads prompt response) = true := by
  have heq : classifyIntent loads prompt response = fallbackRouting prompt := by
    simp only [classifyIntent]
    rcases h with h | h
    · rw [h]
      rfl
    · rw [h]
      split
      · rfl
      · rfl
  exact ⟨heq, heq ▸ fallbackRouting_complete prompt⟩

/-- C2 witness: `classifyIntent_fallback_complete` on a garbled,
non-JSON reply. -/
theorem classifyIntent_fallback_complete_witness :
    classifyIntent (fun _ => none) "hello" "no json here" =
        fallbackRouting "hello" ∧
      isCompleteDecision (classifyIntent (fun _ => none) "hello" "no json here") =
        true :=
  classifyIntent_fallback_complete (fun _ => none) "hello" "no json here"
    (Or.inr rfl)

/-! ## C8 — critique gate and retry budget -/

/-- An expert stub producing a fixed draft. -/
def expertDraft : Ctx → String := fun _ => "draft"

/-- A critic stub whose verdict never contains a pass marker. -/
def criticNeverPass : Ctx → String := fun _ => "needs work"

/-- The initial context used in closed dispatch-loop statements. -/
def ctx0 : Ctx :=
  { prompt := "task", memory := [], knowledge := "", prevOutput := "",
    critique := none }

/-- C8 counterexample: for a CODING request of difficulty exactly 4 the
critique gate *is* entered (one critic call) but the attempt budget is 1, not
2 — `max_retries = 2 if difficulty > 4 else 1` uses a strict comparison — so
a failed critique is *not* followed by a retry dispatch. -/
theorem dispatch_difficulty_four_no_retry :
    (dispatchLoop expertDraft criticNeverPass "task" "CODING" 4 ctx0).2 =
        (1, 1) ∧
      maxRetriesOf 4 ≠ 2 ∧ critiqueGate "CODING" 4 = true := by
  decide

/-- C8 (amended): the critique gate is entered iff intent ∈ {CODING,
REASONING} and difficulty ≥ 4, but the attempt budget is 2 only for
difficulty strictly greater than 4 (else 1).  With a critic that never
passes: a CODING request of difficulty 4 gets one dispatch and one critic
call, its draft returned as final; difficulty 5 gets the full two dispatches;
difficulty 3 and non-gated intents get one dispatch and no critic call; and
in general the number of dispatches equals the attempt budget. -/
theorem dispatch_gate_and_budget (expertF criticF : Ctx → String)
    (userPrompt : String) (ctx : Ctx)
    (hfail : ∀ c, passedVerdict (criticF c) = false) :
    (∀ d : Int,
        (dispatchLoop expertF criticF userPrompt "CODING" d ctx).2.1 =
          maxRetriesOf d) ∧
      (dispatchLoop expertF criticF userPrompt "CODING" 4 ctx).2 = (1, 1) ∧
      (dispatchLoop expertF criticF userPrompt "CODING" 4 ctx).1 = expertF ctx ∧
      (dispatchLoop expertF criticF userPrompt "CODING" 5 ctx).2 = (2, 2) ∧
      (dispatchLoop expertF criticF userPrompt "CODING" 3 ctx).2 = (1, 0) ∧
      (dispatchLoop expertF criticF userPrompt "CHAT" 9 ctx).2 = (1, 0) := by
  have hcg : ∀ d : Int, critiqueGate "CODING" d = decide (4 ≤ d) := by
    intro d
    simp [critiqueGate]
  have hgen : ∀ d : Int,
      (dispatchLoop expertF criticF userPrompt "CODING" d ctx).2.1 =
        maxRetriesOf d := by
    intro d
    by_cases h4 : (4 : Int) < d
    · have hmr : maxRetriesOf d = 2 := by simp [maxRetriesOf, h4]
      have hg : critiqueGate "CODING" d = true := by
        rw [hcg]
        simp only [decide_eq_true_eq]
        omega
      simp [dispatchLoop, hmr, List.range_succ, dispatchGo, hg, hfail]
    · by_cases hge : (4 : Int) ≤ d
      · have hmr : maxRetriesOf d = 1 := by simp [maxRetriesOf, h4]
        have hg : critiqueGate "CODING" d = true := by
          rw [hcg]
          simp only [decide_eq_true_eq]
          omega
        simp [dispatchLoop, hmr, List.range_succ, dispatchGo, hg, hfail]
      · have hmr : maxRetriesOf d = 1 := by simp [maxRetriesOf, h4]
        have hg : critiqueGate "CODING" d = false := by
          rw [hcg]
          simp only [decide_eq_false_iff_not]
          omega
        simp [dispatchLoop, hmr, List.range_succ, dispatchGo, hg, hfail]
  have hg4 : critiqueGate "CODING" 4 = true := by rw [hcg]; decide
  have hg5 : critiqueGate "CODING" 5 = true := by rw [hcg]; decide
  have hg3 : critiqueGate "CODING" 3 = false := by rw [hcg]; decide
  have hgchat : critiqueGate "CHAT" 9 = false := by simp [critiqueGate]
  have hmr4 : maxRetriesOf 4 = 1 := by decide
  have hmr5 : maxRetriesOf 5 = 2 := by decide
  have hmr3 : maxRetriesOf 3 = 1 := by decide
  have hmr9 : maxRetriesOf 9 = 2 := by decide
  refine ⟨hgen, ?_, ?_, ?_, ?_, ?_⟩
  · simp [dispatchLoop, hmr4, List.range_succ, dispatchGo, hg4, hfail]
  · simp [dispatchLoop, hmr4, List.range_succ, dispatchGo, hg4, hfail]
  · simp [dispatchLoop, hmr5, List.range_succ, dispatchGo, hg5, hfail]
  · simp [dispatchLoop, hmr3, List.range_succ, dispatchGo, hg3, hfail]
  · simp [dispatchLoop, hmr9, List.range_succ, dispatchGo, hgchat, hfail]

theorem criticNeverPass_fails (c : Ctx) :
    passedVerdict (criticNeverPass c) = false := by
  show passedVerdict "needs work" = false
  decide

/-- C8 witness: `dispatch_gate_and_budget` instantiated with concrete stubs
(a fixed draft, a critic that never passes). -/
theorem dispatch_gate_and_budget_witness :
    (dispatchLoop expertDraft criticNeverPass "t" "CODING" 7 ctx0).2.1 =
        maxRetriesOf 7 ∧
      (dispatchLoop expertDraft criticNeverPass "t" "CODING" 5 ctx0).2 =
        (2, 2) :=
  ⟨(dispatch_gate_and_budget expertDraft criticNeverPass "t" ctx0
      criticNeverPass_fails).1 7,
   (dispatch_gate_and_budget expertDraft criticNeverPass "t" ctx0
      criticNeverPass_fails).2.2.2.1⟩

/-! ## C3 — memory index consistency -/

/-- Two stores into a capacity-1 memory: the second evicts the first from the
ring buffer. -/
def memOpsEvict : List MemOp :=
  [MemOp.store "a" 0 "user" "x" (some "t") 1 1,
   MemOp.store "b" 1 "user" "y" none 1 1]

/-- C3 counterexample: storing at capacity evicts the oldest item from the
buffer, but `_register` never removes the evicted id from the id index (nor
from its topic entry), so after the second store the index still holds
`"a"` while the buffer holds only `"b"` — the claimed invariant fails. -/
theorem index_consistency_claim_false :
    indexConsistent (runMem (fun _ => 0) memOpsEvict (initMemory 1 0)) =
      false := by
  decide

theorem mem_dequeAppend {m : α} {M : Nat} {buf : List α} {x : α}
    (h : m ∈ dequeAppend M buf x) : m ∈ buf ∨ m = x := by
  unfold dequeAppend at h
  have hmem := List.mem_of_mem_drop h
  rcases List.mem_append.mp hmem with h1 | h1
  · exact Or.inl h1
  · exact Or.inr (by simpa using h1)

theorem dmem_foldl_dset (l : List MemItem) :
    ∀ (d : List (String × MemItem)) (k : String), dmem d k = true →
      dmem (l.foldl (fun d m => dset d m.id m) d) k = true := by
  induction l with
  | nil => intro d k h; exact h
  | cons x xs ih =>
    intro d k h
    rw [List.foldl_cons]
    exact ih _ _ (dmem_dset_of_dmem d x.id k x h)

theorem mem_foldl_dset_self (l : List MemItem) :
    ∀ (d : List (String × MemItem)) (m : MemItem), m ∈ l →
      dmem (l.foldl (fun d m => dset d m.id m) d) m.id = true := by
  induction l with
  | nil => intro d m h; simp at h
  | cons x xs ih =>
    intro d m h
    rw [List.foldl_cons]
    rcases List.mem_cons.mp h with rfl | h1
    · exact dmem_foldl_dset xs _ _ (dmem_dset_self d m.id m)
    · exact ih _ m h1

/-- The buffer-side invariant: every item in the buffer has its id in the
id index. -/
def BufInv (st : MemoryState) : Prop :=
  ∀ m ∈ st.buffer, dmem st.index m.id = true

theorem bufInv_register (item : MemItem) (st : MemoryState) (h : BufInv st) :
    BufInv (register item st) := by
  intro m hm
  have hm' : m ∈ dequeAppend st.maxItems st.buffer item := hm
  show dmem (dset st.index item.id item) m.id = true
  rcases mem_dequeAppend hm' with h1 | rfl
  · exact dmem_dset_of_dmem _ _ _ _ (h m h1)
  · exact dmem_dset_self _ _ _

theorem bufInv_loadRegister (item : MemItem) (st : MemoryState)
    (h : BufInv st) : BufInv (loadRegister st item) := by
  intro m hm
  have hm' : m ∈ dequeAppend st.maxItems st.buffer item := hm
  show dmem (dset st.index item.id item) m.id = true
  rcases mem_dequeAppend hm' with h1 | rfl
  · exact dmem_dset_of_dmem _ _ _ _ (h m h1)
  · exact dmem_dset_self _ _ _

theorem bufInv_foldl_loadRegister (l : List MemItem) :
    ∀ (s : MemoryState), BufInv s → BufInv (l.foldl loadRegister s) := by
  induction l with
  | nil => intro s h; exact h
  | cons x xs ih =>
    intro s h
    rw [List.foldl_cons]
    exact ih _ (bufInv_loadRegister x s h)

theorem bufInv_memLoadOk (data : List MemItem) (st : MemoryState) :
    BufInv (memLoadOk data st) := by
  unfold memLoadOk
  apply bufInv_foldl_loadRegister
  intro m hm
  exact absurd hm (List.not_mem_nil m)

theorem bufInv_applyMemOp (expf : ℚ → ℚ) (st : MemoryState) (op : MemOp)
    (h : BufInv st) : BufInv (applyMemOp expf st op) := by
  cases op with
  | store id ts role content topic imp att => exact bufInv_register _ st h
  | consolidate now =>
    show BufInv (consolidate expf now st)
    unfold consolidate
    split
    · exact h
    · intro m hm
      exact mem_foldl_dset_self _ _ _ hm
  | load data => exact bufInv_memLoadOk data st
  | clear =>
    intro m hm
    exact absurd hm (List.not_mem_nil m)

theorem bufInv_runMem (expf : ℚ → ℚ) (ops : List MemOp) :
    ∀ (st : MemoryState), BufInv st → BufInv (runMem expf ops st) := by
  induction ops with
  | nil => intro st h; exact h
  | cons op rest ih =>
    intro st h
    show BufInv (runMem expf rest (applyMemOp expf st op))
    exact ih _ (bufInv_applyMemOp expf st op h)

/-- C3 (amended): the claimed direction fails (see the counterexample:
eviction at capacity leaves the evicted id in the id index and in its topic
entry, and `consolidate` rebuilds only the id index, not the topic index);
what does hold, after every sequence of store / consolidate / load / clear
operations from a fresh store, is the converse inclusion — every item
currently in the buffer is registered in the id index. -/
theorem memory_buffer_always_indexed (expf : ℚ → ℚ) (maxItems : Nat)
    (t0 : ℚ) (ops : List MemOp) :
    bufferIndexed (runMem expf ops (initMemory maxItems t0)) = true := by
  unfold bufferIndexed
  rw [List.all_eq_true]
  intro m hm
  have hinv : BufInv (runMem expf ops (initMemory maxItems t0)) := by
    apply bufInv_runMem
    intro x hx
    simp [initMemory] at hx
  exact hinv m hm

/-! ## C5 — routing weights stay in `[min_weight, max_weight]` -/

theorem pyRoundInt_bounds (x : ℚ) (a b : ℤ) (ha : (a : ℚ) ≤ x)
    (hb : x ≤ (b : ℚ)) : a ≤ pyRoundInt x ∧ pyRoundInt x ≤ b := by
  have hfl : (⌊x⌋ : ℚ) ≤ x := Int.floor_le x
  have hal : a ≤ ⌊x⌋ := Int.le_floor.mpr ha
  have hbu : ⌊x⌋ ≤ b := by
    have h1 : ⌊x⌋ ≤ ⌊(b : ℚ)⌋ := Int.floor_le_floor hb
    simpa using h1
  have hup : ∀ hr : ¬ (x - (⌊x⌋ : ℚ) < 1/2), ⌊x⌋ + 1 ≤ b := by
    intro hr
    by_contra hc
    have h2 : b ≤ ⌊x⌋ := by omega
    have h3 : (b : ℚ) ≤ (⌊x⌋ : ℚ) := by exact_mod_cast h2
    have h4 : (1 : ℚ)/2 ≤ x - (⌊x⌋ : ℚ) := le_of_not_lt hr
    linarith
  simp only [pyRoundInt]
  split
  · exact ⟨hal, hbu⟩
  · split
    · next hr1 hr2 =>
      refine ⟨by omega, hup ?_⟩
      intro hc
      exact hr1 hc
    · split
      · exact ⟨hal, hbu⟩
      · next hr1 hr2 _ =>
        refine ⟨by omega, hup ?_⟩
        intro hc
        exact hr1 hc

theorem round4_in_range (x : ℚ) (hlo : minWeight ≤ x) (hhi : x ≤ maxWeight) :
    minWeight ≤ round4 x ∧ round4 x ≤ maxWeight := by
  unfold minWeight maxWeight at *
  have ha : ((1000 : ℤ) : ℚ) ≤ x * 10000 := by push_cast; linarith
  have hb : x * 10000 ≤ ((20000 : ℤ) : ℚ) := by push_cast; linarith
  obtain ⟨h1, h2⟩ := pyRoundInt_bounds (x * 10000) 1000 20000 ha hb
  unfold round4
  have h1' : (1000 : ℚ) ≤ (pyRoundInt (x * 10000) : ℚ) := by exact_mod_cast h1
  have h2' : (pyRoundInt (x * 10000) : ℚ) ≤ 20000 := by exact_mod_cast h2
  constructor
  · rw [le_div_iff₀ (by norm_num : (0:ℚ) < 10000)]
    linarith
  · rw [div_le_iff₀ (by norm_num : (0:ℚ) < 10000)]
    linarith

/-- The per-entry bound invariant on a weights dict. -/
def WInv (w : List (String × ℚ)) : Prop :=
  ∀ kv ∈ w, minWeight ≤ kv.2 ∧ kv.2 ≤ maxWeight

theorem wInv_dset (w : List (String × ℚ)) (k : String) (v : ℚ)
    (hw : WInv w) (hv : minWeight ≤ v ∧ v ≤ maxWeight) : WInv (dset w k v) := by
  intro kv hkv
  unfold dset at hkv
  split at hkv
  · rcases List.mem_map.mp hkv with ⟨kv', hkv', heq⟩
    by_cases hk : kv'.1 = k
    · rw [if_pos hk] at heq
      rw [← heq]
      exact hv
    · rw [if_neg hk] at heq
      rw [← heq]
      exact hw kv' hkv'
  · rcases List.mem_append.mp hkv with h1 | h1
    · exact hw kv h1
    · have : kv = (k, v) := by simpa using h1
      rw [this]
      exact hv

theorem wInv_adjustWeight (w : List (String × ℚ)) (name : String)
    (direction : Int) (quality : ℚ) (hw : WInv w) :
    WInv (adjustWeight w name direction quality) := by
  unfold adjustWeight
  apply wInv_dset _ _ _ hw
  apply round4_in_range
  · exact le_max_left _ _
  · apply max_le
    · unfold minWeight maxWeight; norm_num
    · exact min_le_left _ _

theorem wInv_learnStep (st : MetaState) (c : CritiqueQ)
    (hw : WInv st.weights) : WInv (learnStep st c).weights := by
  unfold learnStep
  split
  · split
    · exact wInv_adjustWeight _ _ _ _ hw
    · exact hw
  · split
    · split
      · exact wInv_adjustWeight _ _ _ _ hw
      · exact hw
    · exact hw

theorem wInv_initWeights : WInv initWeights := by
  intro kv hkv
  simp only [initWeights, List.mem_cons, List.not_mem_nil, or_false] at hkv
  unfold minWeight maxWeight
  rcases hkv with rfl | rfl | rfl | rfl | rfl <;> constructor <;> norm_num

/-- C5: starting from the initial weight table, after any sequence of
`learn` calls — i.e. arbitrary quality scores and best-expert attributions —
every routing weight lies in `[min_weight, max_weight]` (= [0.1, 2.0]);
since every prefix of a sequence is a sequence, the bound holds after every
individual adjustment. -/
theorem weights_always_in_range (cs : List CritiqueQ) :
    weightsInRange ((cs.foldl learnStep initMetaState).weights) = true := by
  have hinv : ∀ (st : MetaState), WInv st.weights →
      WInv ((cs.foldl learnStep st).weights) := by
    induction cs with
    | nil => intro st h; exact h
    | cons c rest ih =>
      intro st h
      rw [List.foldl_cons]
      exact ih _ (wInv_learnStep st c h)
  have h := hinv initMetaState wInv_initWeights
  unfold weightsInRange
  rw [List.all_eq_true]
  intro kv hkv
  rw [decide_eq_true_eq]
  exact h kv hkv

/-! ## C7 — SelfState scalars stay in `[0, 1]` -/

/-- A metrics dict carrying a negative complexity. -/
def metricsNegComplexity : Metrics :=
  { complexity := some (-20), success := none, confidence := none }

/-- C7 counterexample: `update({"complexity": -20})` drives fatigue to
`min(1.0, 0 + (-20)·0.1) = -2`: the code clamps fatigue only from above, so
with arbitrary metrics dictionaries the scalars do *not* stay in `[0, 1]`
(and focus then exceeds 1 on the next recomputation). -/
theorem selfstate_claim_false :
    inRange01 (selfUpdate metricsNegComplexity (initSelfState 0)) = false := by
  have hfat : (selfUpdate metricsNegComplexity (initSelfState 0)).fatigue =
      min 1 (0 + (-20 : ℚ) * (1/10)) := rfl
  have hneg : (selfUpdate metricsNegComplexity (initSelfState 0)).fatigue < 0 := by
    rw [hfat]
    have : min (1 : ℚ) (0 + (-20 : ℚ) * (1/10)) ≤ 0 + (-20 : ℚ) * (1/10) :=
      min_le_right _ _
    linarith
  unfold inRange01
  have : decide (0 ≤ (selfUpdate metricsNegComplexity (initSelfState 0)).fatigue ∧
      (selfUpdate metricsNegComplexity (initSelfState 0)).fatigue ≤ 1) = false := by
    rw [decide_eq_false_iff_not]
    intro hcon
    linarith [hcon.1]
  rw [this]
  rfl

/-- The propositional form of the `[0,1]` range invariant. -/
def InR (s : SelfStateQ) : Prop :=
  (0 ≤ s.fatigue ∧ s.fatigue ≤ 1) ∧ (0 ≤ s.stress ∧ s.stress ≤ 1) ∧
    (0 ≤ s.mood ∧ s.mood ≤ 1) ∧ (0 ≤ s.confidence ∧ s.confidence ≤ 1) ∧
    (0 ≤ s.focus ∧ s.focus ≤ 1)

theorem inRange01_of_inR {s : SelfStateQ} (h : InR s) : inRange01 s = true := by
  obtain ⟨h1, h2, h3, h4, h5⟩ := h
  unfold inRange01
  rw [decide_eq_true h1, decide_eq_true h2, decide_eq_true h3,
    decide_eq_true h4, decide_eq_true h5]
  rfl

theorem metricsOk_complexity {m : Metrics} (hm : metricsOk m = true) :
    0 ≤ m.complexity.getD (1/10) := by
  unfold metricsOk at hm
  rw [Bool.and_eq_true] at hm
  rcases hc : m.complexity with _ | c
  · norm_num
  · have h1 := hm.1
    rw [hc] at h1
    have h1' : decide ((0 : ℚ) ≤ c) = true := h1
    rw [Option.getD_some]
    exact of_decide_eq_true h1'

theorem metricsOk_confidence {m : Metrics} (hm : metricsOk m = true)
    (c : ℚ) (hc : m.confidence = some c) : 0 ≤ c ∧ c ≤ 1 := by
  unfold metricsOk at hm
  rw [Bool.and_eq_true] at hm
  have h2 := hm.2
  rw [hc] at h2
  have h2' : decide ((0 : ℚ) ≤ c ∧ c ≤ 1) = true := h2
  exact of_decide_eq_true h2'

theorem inR_selfUpdate (m : Metrics) (s : SelfStateQ)
    (hm : metricsOk m = true) (hs : InR s) : InR (selfUpdate m s) := by
  obtain ⟨⟨hf0, hf1⟩, ⟨hs0, hs1⟩, ⟨hm0, hm1⟩, ⟨hc0, hc1⟩, _, _⟩ := hs
  have hcx : 0 ≤ m.complexity.getD (1/10) := metricsOk_complexity hm
  have hfat : (selfUpdate m s).fatigue =
      min 1 (s.fatigue + m.complexity.getD (1/10) * (1/10)) := rfl
  have hstr : (selfUpdate m s).stress =
      (if m.success.getD true then max 0 (s.stress - 5/100)
       else min 1 (s.stress + 1/10)) := rfl
  have hmoo : (selfUpdate m s).mood =
      (if m.success.getD true then min 1 (s.mood + 5/100)
       else max 0 (s.mood - 1/10)) := rfl
  have hcon : (selfUpdate m s).confidence =
      (if m.confidence.isSome then
        (if m.success.getD true then min 1 (s.confidence + 5/100)
         else max 0 (s.confidence - 1/10)) * (7/10) +
          m.confidence.getD (1/2) * (3/10)
       else
        (if m.success.getD true then min 1 (s.confidence + 5/100)
         else max 0 (s.confidence - 1/10))) := rfl
  have hfoc : (selfUpdate m s).focus =
      max 0 (1 - (selfUpdate m s).fatigue * (8/10) -
        (selfUpdate m s).stress * (2/10)) := rfl
  have hfatB : 0 ≤ (selfUpdate m s).fatigue ∧ (selfUpdate m s).fatigue ≤ 1 := by
    rw [hfat]
    constructor
    · apply le_min (by norm_num)
      have : 0 ≤ m.complexity.getD (1/10) * (1/10) :=
        mul_nonneg hcx (by norm_num)
      linarith
    · exact min_le_left _ _
  have hstrB : 0 ≤ (selfUpdate m s).stress ∧ (selfUpdate m s).stress ≤ 1 := by
    rw [hstr]
    rcases m.success.getD true with _ | _
    · simp only [if_neg Bool.false_ne_true]
      constructor
      · apply le_min (by norm_num)
        linarith
      · exact min_le_left _ _
    · simp only [if_pos rfl]
      constructor
      · exact le_max_left _ _
      · apply max_le (by norm_num)
        linarith
  have hmooB : 0 ≤ (selfUpdate m s).mood ∧ (selfUpdate m s).mood ≤ 1 := by
    rw [hmoo]
    rcases m.success.getD true with _ | _
    · simp only [if_neg Bool.false_ne_true]
      constructor
      · exact le_max_left _ _
      · apply max_le (by norm_num)
        linarith
    · simp only [if_pos rfl]
      constructor
      · apply le_min (by norm_num)
        linarith
      · exact min_le_left _ _
  have hbase : 0 ≤ (if m.success.getD true then min 1 (s.confidence + 5/100)
      else max 0 (s.confidence - 1/10)) ∧
      (if m.success.getD true then min 1 (s.confidence + 5/100)
       else max 0 (s.confidence - 1/10)) ≤ 1 := by
    rcases m.success.getD true with _ | _
    · simp only [if_neg Bool.false_ne_true]
      constructor
      · exact le_max_left _ _
      · apply max_le (by norm_num)
        linarith
    · simp only [if_pos rfl]
      constructor
      · apply le_min (by norm_num)
        linarith
      · exact min_le_left _ _
  have hconB : 0 ≤ (selfUpdate m s).confidence ∧
      (selfUpdate m s).confidence ≤ 1 := by
    rcases hcf : m.confidence with _ | c
    · have hcon2 : (selfUpdate m s).confidence =
          (if m.success.getD true then min 1 (s.confidence + 5/100)
           else max 0 (s.confidence - 1/10)) := by
        rw [hcon, hcf]
        simp
      rw [hcon2]
      exact hbase
    · obtain ⟨ho0, ho1⟩ := metricsOk_confidence hm c hcf
      have hcon2 : (selfUpdate m s).confidence =
          (if m.success.getD true then min 1 (s.confidence + 5/100)
           else max 0 (s.confidence - 1/10)) * (7/10) + c * (3/10) := by
        rw [hcon, hcf]
        simp
      rw [hcon2]
      obtain ⟨hb0, hb1⟩ := hbase
      constructor
      · have h1 : 0 ≤ (if m.success.getD true then min 1 (s.confidence + 5/100)
            else max 0 (s.confidence - 1/10)) * (7/10) :=
          mul_nonneg hb0 (by norm_num)
        have h2 : 0 ≤ c * (3/10) := mul_nonneg ho0 (by norm_num)
        linarith
      · linarith
  have hfocB : 0 ≤ (selfUpdate m s).focus ∧ (selfUpdate m s).focus ≤ 1 := by
    rw [hfoc]
    constructor
    · exact le_max_left _ _
    · apply max_le (by norm_num)
      have h1 : 0 ≤ (selfUpdate m s).fatigue * (8/10) :=
        mul_nonneg hfatB.1 (by norm_num)
      have h2 : 0 ≤ (selfUpdate m s).stress * (2/10) :=
        mul_nonneg hstrB.1 (by norm_num)
      linarith
  exact ⟨hfatB, hstrB, hmooB, hconB, hfocB⟩

theorem inR_naturalDecay (now : ℚ) (s : SelfStateQ) (hs : InR s) :
    InR (naturalDecay now s) := by
  obtain ⟨⟨hf0, hf1⟩, ⟨hs0, hs1⟩, ⟨hm0, hm1⟩, ⟨hc0, hc1⟩, ⟨hfo0, hfo1⟩⟩ := hs
  have heq : naturalDecay now s =
      (if 10 < now - s.lastUpdate then
        { s with
          fatigue := max 0 (s.fatigue -
            (⌊(now - s.lastUpdate) / 10⌋ : ℚ) * (2/100))
          stress := max 0 (s.stress -
            (⌊(now - s.lastUpdate) / 10⌋ : ℚ) * (2/100))
          mood :=
            if 1/2 < s.mood then
              max (1/2) (s.mood - (⌊(now - s.lastUpdate) / 10⌋ : ℚ) * (2/100))
            else
              min (1/2) (s.mood + (⌊(now - s.lastUpdate) / 10⌋ : ℚ) * (2/100))
          lastUpdate := now }
      else s) := rfl
  rw [heq]
  by_cases hd : 10 < now - s.lastUpdate
  · rw [if_pos hd]
    have hsteps : (1 : ℚ) ≤ (⌊(now - s.lastUpdate) / 10⌋ : ℚ) := by
      have h1 : (1 : ℤ) ≤ ⌊(now - s.lastUpdate) / 10⌋ := by
        rw [Int.le_floor]
        rw [le_div_iff₀ (by norm_num : (0:ℚ) < 10)]
        push_cast
        linarith
      exact_mod_cast h1
    have hrec : 0 ≤ (⌊(now - s.lastUpdate) / 10⌋ : ℚ) * (2/100) := by
      apply mul_nonneg _ (by norm_num)
      linarith
    refine ⟨⟨le_max_left _ _, max_le (by norm_num) (by linarith)⟩,
      ⟨le_max_left _ _, max_le (by norm_num) (by linarith)⟩, ?_,
      ⟨hc0, hc1⟩, ⟨hfo0, hfo1⟩⟩
    by_cases hmo : 1/2 < s.mood
    · rw [if_pos hmo]
      exact ⟨le_trans (by norm_num) (le_max_left _ _),
        max_le (by norm_num) (by linarith)⟩
    · rw [if_neg hmo]
      exact ⟨le_min (by norm_num) (by linarith),
        le_trans (min_le_left _ _) (by norm_num)⟩
  · rw [if_neg hd]
    exact ⟨⟨hf0, hf1⟩, ⟨hs0, hs1⟩, ⟨hm0, hm1⟩, ⟨hc0, hc1⟩, ⟨hfo0, hfo1⟩⟩

theorem inR_initSelfState (t0 : ℚ) : InR (initSelfState t0) := by
  unfold InR initSelfState
  norm_num

/-- C7 (amended): the five SelfState scalars remain in `[0, 1]` after every
sequence of `update` and `snapshot` (natural-decay) steps *provided* each
update's metrics are well-formed — a supplied complexity is nonnegative and a
supplied confidence observation lies in `[0, 1]`.  Without that restriction
the invariant fails (see the counterexample: a negative complexity drives
fatigue below 0, since `update` clamps fatigue only from above; an
out-of-range confidence observation similarly escapes via the 70/30 blend). -/
theorem selfstate_in_range (steps : List SSStep) (t0 : ℚ)
    (h : steps.all ssStepOk = true) :
    inRange01 (runSelfState steps (initSelfState t0)) = true := by
  apply inRange01_of_inR
  have haux : ∀ (l : List SSStep) (s : SelfStateQ), l.all ssStepOk = true →
      InR s → InR (runSelfState l s) := by
    intro l
    induction l with
    | nil => intro s _ hs; exact hs
    | cons step rest ih =>
      intro s hall hs
      rw [List.all_cons, Bool.and_eq_true] at hall
      show InR (runSelfState rest (applySSStep s step))
      apply ih _ hall.2
      cases step with
      | update m => exact inR_selfUpdate m s hall.1 hs
      | snapshot now => exact inR_naturalDecay now s hs
  exact haux steps (initSelfState t0) h (inR_initSelfState t0)

/-- A well-formed metrics dict (nonnegative complexity, in-range
confidence). -/
def metricsGood : Metrics :=
  { complexity := some 2, success := some false, confidence := some 1 }

/-- C7 witness: `selfstate_in_range` on a concrete two-step run (a
well-formed update followed by a snapshot). -/
theorem selfstate_in_range_witness :
    inRange01 (runSelfState [SSStep.update metricsGood, SSStep.snapshot 5]
      (initSelfState 0)) = true :=
  selfstate_in_range _ 0 (by decide)

/-! ## C1 — `FusionBrain.think` never completes -/

theorem pyRaises_bind_all (x : Except PyErr α)
    (f : α → Except PyErr String) (hf : ∀ v, pyRaises (f v) = true) :
    pyRaises (x >>= f) = true := by
  cases x with
  | error e => rfl
  | ok v => exact hf v

/-- C1: `think` raises on *every* prompt, in *every* environment (whatever
the router, the experts, the critic and the clock return): the RETRIEVE stage
calls `KnowledgeBase.retrieve` with the keyword `n_results`, which `retrieve`
does not accept, raising `TypeError` before the dispatch loop — and even
apart from that, the LEARN/PERSIST stages call the nonexistent
`MetaLearning.track`, `MetaLearning.evaluate_episode` and
`Memory.save_episode`.  So no pass of the orchestration loop completes, no
final text is returned, and LEARN/PERSIST are never reached — the outer REPL
survives only because it catches the exception and prints it. -/
theorem think_always_raises (env : BrainEnv) (mem0 : MemoryState)
    (userPrompt : String) : pyRaises (think env mem0 userPrompt) = true := by
  unfold think
  apply pyRaises_bind_all
  intro intentV
  apply pyRaises_bind_all
  intro expertV
  apply pyRaises_bind_all
  intro difficultyV
  rfl

end FusionBrain
